import Mathlib

/-!
Verification of the game-state engine of the 3D tic-tac-toe repository
(source file: src/lib/model.py).

Conventions of the shallow embedding:
* Python module constants keep their names.
* The Python board dict, mapping `(x, y, z)` tuples to `Square` objects, is
  modelled as a total function `Pos → Square` together with the key list
  `iter_xyz` that the constructor iterates over; looking up a key outside
  that list raises `KeyError` in Python, which is modelled by the error
  value `MoveErr.keyErr`.
* `dispatcher.send` calls are modelled by returning the list of signals
  sent, in the order they are sent.  The `xyzs_included` payload of the
  SCORE CHANGED signal is not needed by any property proved here and is
  omitted from the signal type.
* `random.choice` for the first player is modelled by taking the first
  player as an explicit parameter.
* Exceptions raised by `move` are modelled by returning the state reached
  at the point of the raise together with `some` error value; in the
  source every raise happens before any mutation, and the embedding
  mirrors that control flow.
* Conditional mutations of a single field (the status list, the scores
  dict) are expressed as conditionally chosen field values, which is the
  same state transformation.
* The lazily computed class attribute `_winning_paths` is modelled by the
  top-level definition `winning_paths`; the spec itself notes that eager
  computation is behaviourally identical.
-/

def SIZE : Nat := 3

def SQUARES_PER_LEVEL : Nat := SIZE ^ 2

def TOTAL_SQUARES : Nat := SIZE ^ 3

def SPECIAL_SQUARES : List Nat := [1, 2, 6, 7]

def RANGE_SIZE : List Int := [0, 1, 2]

def RANGE_SIZE_REVERSED : List Int := [2, 1, 0]

def TICTACTOE_VALUE : Int := 1

def SPECIAL_TICTACTOE_VALUE : Int := 2

inductive Player where
  | red
  | blue
deriving DecidableEq

inductive CellValue where
  | blank
  | occ (p : Player)
deriving DecidableEq

structure Square where
  value : CellValue
  special : Bool
deriving DecidableEq

abbrev Pos : Type := Int × Int × Int

inductive Signal where
  | levelChanged
  | scoreChanged
  | boardChanged
  | playerChanged
  | statusChanged
deriving DecidableEq

inductive StatusMsg where
  | onlyUp
  | tie
  | winnerMsg (p : Player)
  | pointsEarned (points : Int) (plural : Bool)
deriving DecidableEq

inductive MoveErr where
  | wrongLevel
  | squareTaken
  | keyErr
deriving DecidableEq

structure Game where
  board : Pos → Square
  scores : Player → Int
  move_count : Nat
  first_player : Player
  status : List StatusMsg

structure MoveResult where
  game : Game
  signals : List Signal
  error : Option MoveErr

/-- Source: `invert(i)`, i.e. `SIZE - 1 - i`. -/
def invert (i : Int) : Int := (SIZE : Int) - 1 - i

/-- Source: `Game.iter_xyz`, the key enumeration of the board dict
(x outermost, then y, then z). -/
def iter_xyz : List Pos :=
  RANGE_SIZE.flatMap fun x => RANGE_SIZE.flatMap fun y => RANGE_SIZE.map fun z => ((x, y, z) : Pos)

/-- Source: `Game._calc_winning_paths`, in the exact construction order of
the source. -/
def winning_paths : List (List Pos) :=
  (RANGE_SIZE.flatMap fun z =>
    (RANGE_SIZE.map fun y => RANGE_SIZE.map fun x => ((x, y, z) : Pos))
      ++ (RANGE_SIZE.map fun x => RANGE_SIZE.map fun y => ((x, y, z) : Pos))
      ++ [RANGE_SIZE.map fun i => ((i, i, z) : Pos),
          RANGE_SIZE.map fun i => ((invert i, i, z) : Pos)])
  ++ (RANGE_SIZE.flatMap fun x =>
    (RANGE_SIZE.map fun y => RANGE_SIZE_REVERSED.map fun z => ((x, y, z) : Pos))
      ++ [RANGE_SIZE_REVERSED.map fun i => ((x, i, i) : Pos),
          RANGE_SIZE_REVERSED.map fun i => ((x, invert i, i) : Pos)])
  ++ (RANGE_SIZE.flatMap fun y =>
    [RANGE_SIZE_REVERSED.map fun i => ((i, y, i) : Pos),
     RANGE_SIZE_REVERSED.map fun i => ((invert i, y, i) : Pos)])
  ++ [RANGE_SIZE_REVERSED.map fun i => ((i, i, i) : Pos),
      RANGE_SIZE_REVERSED.map fun i => ((i, invert i, i) : Pos),
      RANGE_SIZE_REVERSED.map fun i => ((invert i, i, i) : Pos),
      RANGE_SIZE_REVERSED.map fun i => ((invert i, invert i, i) : Pos)]

/-- Source: `Game.other_player`. -/
def other_player (player : Player) : Player :=
  if player = Player.red then Player.blue else Player.red

/-- Source: the `done` property, `move_count == TOTAL_SQUARES`. -/
def done (g : Game) : Bool := g.move_count == TOTAL_SQUARES

/-- Source: the `current_level` property, `move_count // SQUARES_PER_LEVEL`. -/
def current_level (g : Game) : Nat := g.move_count / SQUARES_PER_LEVEL

/-- Source: the `current_player` property. -/
def current_player (g : Game) : Player :=
  if g.move_count % 2 ≠ 0 then other_player g.first_player else g.first_player

/-- Source: the `current_move_special` property,
`move_count % SQUARES_PER_LEVEL in SPECIAL_SQUARES`. -/
def current_move_special (g : Game) : Bool :=
  decide (g.move_count % SQUARES_PER_LEVEL ∈ SPECIAL_SQUARES)

/-- Source: the `winner` property (None on a tie). -/
def winner (g : Game) : Option Player :=
  let difference := g.scores Player.red - g.scores Player.blue
  if difference = 0 then none
  else if 0 < difference then some Player.red
  else some Player.blue

/-- Membership in the key set of the board dict. -/
def in_board (p : Pos) : Bool := decide (p ∈ iter_xyz)

/-- The state `Square.reset` puts a square into. -/
def blankSquare : Square := { value := CellValue.blank, special := false }

/-- Source: `Game.reset` (the random first-player choice is a parameter;
the board argument is unused because reset blanks every square of the
fixed key set).  Returns the new state and the signals sent, in order. -/
def reset (_g : Game) (first_player : Player) : Game × List Signal :=
  ({ board := fun _ => blankSquare,
     scores := fun _ => 0,
     move_count := 0,
     first_player := first_player,
     status := [] },
   [Signal.levelChanged, Signal.scoreChanged, Signal.boardChanged,
    Signal.playerChanged, Signal.statusChanged])

/-- Source: `Game.__init__` followed by `reset`. -/
def initGame (first_player : Player) : Game :=
  (reset { board := fun _ => blankSquare, scores := fun _ => 0, move_count := 0,
           first_player := first_player, status := [] } first_player).1

/-- Source: the hits / special_hits counting loop inside
`Game._handle_tictactoe`. -/
def countHits (g : Game) (player : Player) (path : List Pos) : Nat × Nat :=
  path.foldl
    (fun hs xyz =>
      if (g.board xyz).value = CellValue.occ player then
        (hs.1 + 1, if (g.board xyz).special then hs.2 + 1 else hs.2)
      else hs)
    (0, 0)

/-- Source: one iteration of the `for path in self._winning_paths` loop of
`Game._handle_tictactoe`; the accumulator is `(points_earned, xyzs_included)`. -/
def scanPath (g : Game) (player : Player) (p : Pos) (acc : Int × List Pos)
    (path : List Pos) : Int × List Pos :=
  if p.2.2 < (path.headD ((0, 0, 0) : Pos)).2.2 then acc
  else if p ∉ path then acc
  else
    let hs := countHits g player path
    let xyzs := if hs.1 = SIZE then acc.2 ++ path else acc.2
    if hs.2 = SIZE then (acc.1 + SPECIAL_TICTACTOE_VALUE, xyzs)
    else if hs.1 = SIZE then (acc.1 + TICTACTOE_VALUE, xyzs)
    else (acc.1, xyzs)

/-- The whole path loop of `Game._handle_tictactoe`. -/
def scanPaths (g : Game) (player : Player) (p : Pos) : Int × List Pos :=
  winning_paths.foldl (scanPath g player p) (0, [])

/-- Source: `Game._handle_tictactoe`.  Returns the new state and the
signals sent. -/
def handle_tictactoe (g : Game) (p : Pos) : Game × List Signal :=
  let player := current_player g
  let r := scanPaths g player p
  let scoresNew : Player → Int :=
    if r.1 ≠ 0 then fun q => if q = player then g.scores q + r.1 else g.scores q
    else g.scores
  let statusNew : List StatusMsg :=
    if r.1 ≠ 0 then g.status ++ [StatusMsg.pointsEarned r.1 (decide (r.1 ≠ 1))]
    else g.status
  let sigs : List Signal := if r.1 ≠ 0 then [Signal.scoreChanged] else []
  ({ g with scores := scoresNew, status := statusNew }, sigs)

/-- The mutation step of `Game.move` that clears the status list and fills
the target square (`square.value = self.current_player`,
`square.special = self.current_move_special`). -/
def place_square (g : Game) (p : Pos) : Game :=
  { g with
      status := [],
      board := fun q =>
        if q = p then
          { value := CellValue.occ (current_player g), special := current_move_special g }
        else g.board q }

/-- The part of `Game.move` that runs after the precondition checks have
passed. -/
def moveBody (g : Game) (p : Pos) : MoveResult :=
  let g1 := place_square g p
  let hr := handle_tictactoe g1 p
  let g3 : Game := { hr.1 with move_count := hr.1.move_count + 1 }
  let new_level : Bool := g3.move_count % SQUARES_PER_LEVEL == 0
  let status4 : List StatusMsg :=
    if 0 < g3.move_count ∧ done g3 = false ∧ new_level = true then
      g3.status ++ [StatusMsg.onlyUp]
    else g3.status
  let g4 : Game := { g3 with status := status4 }
  let status5 : List StatusMsg :=
    if done g4 = true then
      match winner g4 with
      | none => g4.status ++ [StatusMsg.tie]
      | some w => g4.status ++ [StatusMsg.winnerMsg w]
    else g4.status
  let g5 : Game := { g4 with status := status5 }
  { game := g5,
    signals := Signal.boardChanged :: hr.2
      ++ Signal.playerChanged :: (if new_level = true then [Signal.levelChanged] else [])
      ++ [Signal.statusChanged],
    error := none }

/-- Source: `Game.move`.  The three failure exits are, in source order:
wrong level, missing dict key (KeyError), square taken. -/
def move (g : Game) (p : Pos) : MoveResult :=
  if p.2.2 ≠ (current_level g : Int) then
    { game := g, signals := [], error := some MoveErr.wrongLevel }
  else if in_board p = false then
    { game := g, signals := [], error := some MoveErr.keyErr }
  else if (g.board p).value ≠ CellValue.blank then
    { game := g, signals := [], error := some MoveErr.squareTaken }
  else moveBody g p

/-- Sequential application of moves; `none` as soon as one move fails. -/
def applyMoves : Game → List Pos → Option Game
  | g, [] => some g
  | g, p :: ps =>
    match (move g p).error with
    | some _ => none
    | none => applyMoves ((move g p).game) ps

/-- A state reachable from a freshly reset game by successful moves. -/
def Reachable (g : Game) : Prop :=
  ∃ fp ms, applyMoves (initGame fp) ms = some g

/-- Equality of two paths as sets of positions. -/
def sameSet (a b : List Pos) : Prop := (∀ q ∈ a, q ∈ b) ∧ (∀ q ∈ b, q ∈ a)

instance decSameSet (a b : List Pos) : Decidable (sameSet a b) := by
  unfold sameSet
  exact inferInstance

/-- Modelled from the spec wording of win detection and scoring: the
contribution of one winning path is 2 points when the path contains the
just-filled position, all of its cells are occupied by the mover and all
of them are special, 1 point when it only has all cells occupied by the
mover, and 0 otherwise. -/
def specContrib (b : Pos → Square) (player : Player) (p : Pos) (path : List Pos) : Int :=
  if p ∈ path ∧ (∀ q ∈ path, (b q).value = CellValue.occ player) then
    (if ∀ q ∈ path, (b q).special = true then SPECIAL_TICTACTOE_VALUE else TICTACTOE_VALUE)
  else 0

/-- Modelled from the spec wording: the total points awarded for a move is
the sum of the contributions of all winning paths, each path counted
once. -/
def specPoints (b : Pos → Square) (player : Player) (p : Pos) : Int :=
  winning_paths.foldl (fun acc path => acc + specContrib b player p path) 0


/-- A fixed legal 27-move sequence filling the cube level by level,
used to instantiate theorems at a concrete full game. -/
def seq27 : List Pos :=
  RANGE_SIZE.flatMap fun z => RANGE_SIZE.flatMap fun y => RANGE_SIZE.map fun x => ((x, y, z) : Pos)

/-- The state after playing `seq27` from a fresh game. -/
def g27 : Game := (applyMoves (initGame Player.red) seq27).getD (initGame Player.red)

/-- A two-move legal sequence (the second move lands on special offset 1). -/
def seq2 : List Pos := [((0 : Int), (0 : Int), (0 : Int)), ((1 : Int), (0 : Int), (0 : Int))]

/-- The state after playing `seq2` from a fresh game. -/
def g2w : Game := (applyMoves (initGame Player.red) seq2).getD (initGame Player.red)

/-- The contribution of a single path to `points_earned` in the scan loop
of `Game._handle_tictactoe` (the points component of `scanPath`). -/
def pathPoints (g : Game) (player : Player) (p : Pos) (path : List Pos) : Int :=
  if p.2.2 < (path.headD ((0, 0, 0) : Pos)).2.2 then 0
  else if p ∉ path then 0
  else if (countHits g player path).2 = SIZE then SPECIAL_TICTACTOE_VALUE
  else if (countHits g player path).1 = SIZE then TICTACTOE_VALUE
  else 0

/-! ## Structural lemmas about `handle_tictactoe` and `moveBody` -/

lemma handle_tictactoe_board (g : Game) (p : Pos) :
    (handle_tictactoe g p).1.board = g.board := rfl

lemma handle_tictactoe_move_count (g : Game) (p : Pos) :
    (handle_tictactoe g p).1.move_count = g.move_count := rfl

lemma handle_tictactoe_first_player (g : Game) (p : Pos) :
    (handle_tictactoe g p).1.first_player = g.first_player := rfl

lemma handle_tictactoe_scores_self (g : Game) (p : Pos) :
    (handle_tictactoe g p).1.scores (current_player g) =
      g.scores (current_player g) + (scanPaths g (current_player g) p).1 := by
  by_cases h : (scanPaths g (current_player g) p).1 ≠ 0
  · simp [handle_tictactoe, h]
  · push_neg at h
    simp [handle_tictactoe, h]

lemma handle_tictactoe_scores_other (g : Game) (p : Pos) (q : Player)
    (hq : q ≠ current_player g) :
    (handle_tictactoe g p).1.scores q = g.scores q := by
  by_cases h : (scanPaths g (current_player g) p).1 ≠ 0 <;>
    simp [handle_tictactoe, h, hq]

lemma current_player_place (g : Game) (p : Pos) :
    current_player (place_square g p) = current_player g := rfl

lemma moveBody_error (g : Game) (p : Pos) : (moveBody g p).error = none := rfl

lemma moveBody_board (g : Game) (p : Pos) :
    (moveBody g p).game.board = (place_square g p).board :=
  handle_tictactoe_board (place_square g p) p

lemma moveBody_move_count (g : Game) (p : Pos) :
    (moveBody g p).game.move_count = g.move_count + 1 := rfl

lemma moveBody_first_player (g : Game) (p : Pos) :
    (moveBody g p).game.first_player = g.first_player :=
  handle_tictactoe_first_player (place_square g p) p

lemma moveBody_scores_self (g : Game) (p : Pos) :
    (moveBody g p).game.scores (current_player g) =
      g.scores (current_player g) + (scanPaths (place_square g p) (current_player g) p).1 :=
  handle_tictactoe_scores_self (place_square g p) p

lemma moveBody_scores_other (g : Game) (p : Pos) (q : Player)
    (hq : q ≠ current_player g) :
    (moveBody g p).game.scores q = g.scores q :=
  handle_tictactoe_scores_other (place_square g p) p q hq

/-! ## The three precondition checks of `move` -/

lemma move_ok_conds (g : Game) (p : Pos) (h : (move g p).error = none) :
    p.2.2 = (current_level g : Int) ∧ in_board p = true ∧
      (g.board p).value = CellValue.blank := by
  unfold move at h
  by_cases c1 : p.2.2 ≠ (current_level g : Int)
  · rw [if_pos c1] at h
    simp at h
  · rw [if_neg c1] at h
    push_neg at c1
    by_cases c2 : in_board p = false
    · rw [if_pos c2] at h
      simp at h
    · rw [if_neg c2] at h
      simp only [Bool.not_eq_false] at c2
      by_cases c3 : (g.board p).value ≠ CellValue.blank
      · rw [if_pos c3] at h
        simp at h
      · push_neg at c3
        exact ⟨c1, c2, c3⟩

lemma move_ok_eq (g : Game) (p : Pos) (h : (move g p).error = none) :
    move g p = moveBody g p := by
  obtain ⟨c1, c2, c3⟩ := move_ok_conds g p h
  unfold move
  rw [if_neg (by simp [c1]), if_neg (by simp [c2]), if_neg (by simp [c3])]

/-- C2: for every position with components in [0, 2], a failing `move`
(wrong level or square taken) leaves the entire game state — board,
scores, move count, first player and status messages — unchanged. -/
theorem move_fail_leaves_state (g : Game) (p : Pos)
    (_hx : 0 ≤ p.1 ∧ p.1 ≤ 2) (_hy : 0 ≤ p.2.1 ∧ p.2.1 ≤ 2)
    (_hz : 0 ≤ p.2.2 ∧ p.2.2 ≤ 2)
    (h : (move g p).error ≠ none) :
    (move g p).game = g := by
  by_cases c1 : p.2.2 ≠ (current_level g : Int)
  · unfold move
    rw [if_pos c1]
  · by_cases c2 : in_board p = false
    · unfold move
      rw [if_neg c1, if_pos c2]
    · by_cases c3 : (g.board p).value ≠ CellValue.blank
      · unfold move
        rw [if_neg c1, if_neg c2, if_pos c3]
      · exfalso
        apply h
        unfold move
        rw [if_neg c1, if_neg c2, if_neg c3]
        rfl

/-- Witness for C2: at a fresh game, the move (0, 0, 1) targets the wrong
level, fails, and leaves the state unchanged. -/
theorem move_fail_leaves_state_witness :
    ((0 : Int) ≤ 0 ∧ (0 : Int) ≤ 2) ∧ ((0 : Int) ≤ 1 ∧ (1 : Int) ≤ 2) ∧
    (move (initGame Player.red) ((0 : Int), (0 : Int), (1 : Int))).error ≠ none ∧
    (move (initGame Player.red) ((0 : Int), (0 : Int), (1 : Int))).game = initGame Player.red :=
  ⟨by decide, by decide, by decide,
   move_fail_leaves_state (initGame Player.red) ((0 : Int), (0 : Int), (1 : Int))
     (by decide) (by decide) (by decide) (by decide)⟩

/-- C4: the winning-path table has exactly 49 entries, every entry has
exactly SIZE positions, and no two entries are equal as sets of
positions. -/
theorem winning_paths_table_shape :
    winning_paths.length = 49 ∧
    List.Forall (fun path => path.length = SIZE) winning_paths ∧
    List.Pairwise (fun a b => ¬ sameSet a b) winning_paths := by decide

/-- C6 counterexample: `reset` does not emit the five notifications in the
order claimed by the spec table (board, score, player, level, status);
its very first signal is LEVEL CHANGED. -/
theorem reset_claimed_order_false :
    ¬ ((reset (initGame Player.red) Player.red).2 =
      [Signal.boardChanged, Signal.scoreChanged, Signal.playerChanged,
       Signal.levelChanged, Signal.statusChanged]) := by decide

/-- C6 amended: every call to `reset` emits each of the five notifications
exactly once, in the fixed order LEVEL CHANGED, SCORE CHANGED, BOARD
CHANGED, PLAYER CHANGED, STATUS CHANGED. -/
theorem reset_signal_order (g : Game) (fp : Player) :
    (reset g fp).2 =
      [Signal.levelChanged, Signal.scoreChanged, Signal.boardChanged,
       Signal.playerChanged, Signal.statusChanged] := rfl

/-- C7: every entry of the winning-path table is nonempty and its first
position has the maximum z coordinate among the entry's positions. -/
theorem winning_paths_head_top :
    List.Forall
      (fun path => path ≠ [] ∧
        ∀ q ∈ path, q.2.2 ≤ (path.headD ((0, 0, 0) : Pos)).2.2)
      winning_paths := by decide

/-! ## Characterisation of the board key set -/

lemma mem_iter_xyz (p : Pos) :
    p ∈ iter_xyz ↔ p.1 ∈ RANGE_SIZE ∧ p.2.1 ∈ RANGE_SIZE ∧ p.2.2 ∈ RANGE_SIZE := by
  obtain ⟨x, y, z⟩ := p
  simp [iter_xyz, List.mem_flatMap, List.mem_map, Prod.ext_iff]
  constructor
  · rintro ⟨a, ha, b, hb, c, hc, h1, h2, h3⟩
    subst h1; subst h2; subst h3
    exact ⟨ha, hb, hc⟩
  · rintro ⟨ha, hb, hc⟩
    exact ⟨x, ha, y, hb, z, hc, rfl, rfl, rfl⟩

lemma mem_range_size_iff (x : Int) : x ∈ RANGE_SIZE ↔ x = 0 ∨ x = 1 ∨ x = 2 := by
  simp [RANGE_SIZE]

lemma in_board_of_bounds (p : Pos)
    (hx : 0 ≤ p.1 ∧ p.1 ≤ 2) (hy : 0 ≤ p.2.1 ∧ p.2.1 ≤ 2) (hz : 0 ≤ p.2.2 ∧ p.2.2 ≤ 2) :
    in_board p = true := by
  unfold in_board
  simp only [decide_eq_true_eq]
  rw [mem_iter_xyz, mem_range_size_iff, mem_range_size_iff, mem_range_size_iff]
  omega

lemma place_square_board (g : Game) (p q : Pos) :
    (place_square g p).board q =
      if q = p then
        { value := CellValue.occ (current_player g), special := current_move_special g }
      else g.board q := rfl

/-- C1: for every in-range position, `move` fails with the wrong-level
error iff z differs from the current level, fails with the square-taken
error iff z matches and the target square is occupied, and succeeds in
every other case. -/
theorem move_error_taxonomy (g : Game) (p : Pos)
    (hx : 0 ≤ p.1 ∧ p.1 ≤ 2) (hy : 0 ≤ p.2.1 ∧ p.2.1 ≤ 2)
    (hz : 0 ≤ p.2.2 ∧ p.2.2 ≤ 2) :
    ((move g p).error = some MoveErr.wrongLevel ↔ p.2.2 ≠ (current_level g : Int)) ∧
    ((move g p).error = some MoveErr.squareTaken ↔
      (p.2.2 = (current_level g : Int) ∧ (g.board p).value ≠ CellValue.blank)) ∧
    ((move g p).error = none ↔
      (p.2.2 = (current_level g : Int) ∧ (g.board p).value = CellValue.blank)) := by
  have hib : in_board p = true := in_board_of_bounds p hx hy hz
  unfold move
  by_cases c1 : p.2.2 ≠ (current_level g : Int)
  · rw [if_pos c1]
    simp [c1]
  · rw [if_neg c1]
    push_neg at c1
    rw [if_neg (by simp [hib])]
    by_cases c3 : (g.board p).value ≠ CellValue.blank
    · rw [if_pos c3]
      simp [c1, c3]
    · rw [if_neg c3]
      push_neg at c3
      simp [moveBody_error, c1, c3]

/-- Witness for C1 at a fresh game and the wrong-level position (0, 0, 1). -/
theorem move_error_taxonomy_witness :
    ((0 : Int) ≤ 0 ∧ (0 : Int) ≤ 2) ∧ ((0 : Int) ≤ 1 ∧ (1 : Int) ≤ 2) ∧
    (((move (initGame Player.red) ((0 : Int), (0 : Int), (1 : Int))).error =
        some MoveErr.wrongLevel ↔
        ((1 : Int) ≠ (current_level (initGame Player.red) : Int))) ∧
     ((move (initGame Player.red) ((0 : Int), (0 : Int), (1 : Int))).error =
        some MoveErr.squareTaken ↔
        ((1 : Int) = (current_level (initGame Player.red) : Int) ∧
          ((initGame Player.red).board ((0 : Int), (0 : Int), (1 : Int))).value ≠
            CellValue.blank)) ∧
     ((move (initGame Player.red) ((0 : Int), (0 : Int), (1 : Int))).error = none ↔
        ((1 : Int) = (current_level (initGame Player.red) : Int) ∧
          ((initGame Player.red).board ((0 : Int), (0 : Int), (1 : Int))).value =
            CellValue.blank))) :=
  ⟨by decide, by decide,
   move_error_taxonomy (initGame Player.red) ((0 : Int), (0 : Int), (1 : Int))
     (by decide) (by decide) (by decide)⟩

/-- C9: a successful move changes no cell other than the target, does not
change the score of the player who did not move, and does not change the
first player. -/
theorem move_frame (g : Game) (p : Pos) (h : (move g p).error = none) :
    (∀ q : Pos, q ≠ p → (move g p).game.board q = g.board q) ∧
    (∀ pl : Player, pl ≠ current_player g → (move g p).game.scores pl = g.scores pl) ∧
    (move g p).game.first_player = g.first_player := by
  rw [move_ok_eq g p h]
  refine ⟨?_, ?_, moveBody_first_player g p⟩
  · intro q hq
    rw [moveBody_board, place_square_board, if_neg hq]
  · intro pl hpl
    exact moveBody_scores_other g p pl hpl

/-- Witness for C9 at a fresh game and the successful move (0, 0, 0). -/
theorem move_frame_witness :
    (move (initGame Player.red) ((0 : Int), (0 : Int), (0 : Int))).error = none ∧
    ((∀ q : Pos, q ≠ ((0 : Int), (0 : Int), (0 : Int)) →
        (move (initGame Player.red) ((0 : Int), (0 : Int), (0 : Int))).game.board q =
          (initGame Player.red).board q) ∧
     (∀ pl : Player, pl ≠ current_player (initGame Player.red) →
        (move (initGame Player.red) ((0 : Int), (0 : Int), (0 : Int))).game.scores pl =
          (initGame Player.red).scores pl) ∧
     (move (initGame Player.red) ((0 : Int), (0 : Int), (0 : Int))).game.first_player =
       (initGame Player.red).first_player) :=
  ⟨by decide,
   move_frame (initGame Player.red) ((0 : Int), (0 : Int), (0 : Int)) (by decide)⟩

/-- C10: when z equals the current level but x or y is outside [0, 2],
`move` raises KeyError (neither of the two game errors) and the returned
state is unchanged, with no signals sent. -/
theorem out_of_range_key (g : Game) (x y z : Int)
    (hz : z = (current_level g : Int))
    (hxy : ¬(0 ≤ x ∧ x ≤ 2) ∨ ¬(0 ≤ y ∧ y ≤ 2)) :
    move g ((x, y, z) : Pos) =
      { game := g, signals := [], error := some MoveErr.keyErr } := by
  have hnb : in_board ((x, y, z) : Pos) = false := by
    unfold in_board
    simp only [decide_eq_false_iff_not]
    intro hmem
    rw [mem_iter_xyz] at hmem
    obtain ⟨h1, h2, _⟩ := hmem
    dsimp only at h1 h2
    rw [mem_range_size_iff] at h1 h2
    rcases hxy with hx | hy
    · omega
    · omega
  unfold move
  rw [if_neg (by simp [hz]), if_pos hnb]

/-- Witness for C10 at a fresh game and the out-of-range position (5, 0, 0). -/
theorem out_of_range_key_witness :
    ((0 : Int) = (current_level (initGame Player.red) : Int)) ∧
    (¬((0 : Int) ≤ 5 ∧ (5 : Int) ≤ 2) ∨ ¬((0 : Int) ≤ 0 ∧ (0 : Int) ≤ 2)) ∧
    move (initGame Player.red) (((5 : Int), (0 : Int), (0 : Int)) : Pos) =
      { game := initGame Player.red, signals := [], error := some MoveErr.keyErr } :=
  ⟨by decide, by decide,
   out_of_range_key (initGame Player.red) 5 0 0 (by decide) (by decide)⟩

/-! ## Move-sequence invariants (claims C5 and C8) -/

lemma applyMoves_append (g : Game) (ms ns : List Pos) :
    applyMoves g (ms ++ ns) = (applyMoves g ms).bind fun g2 => applyMoves g2 ns := by
  induction ms generalizing g with
  | nil => rfl
  | cons a as ih =>
    simp only [List.cons_append, applyMoves]
    cases he : (move g a).error with
    | some e => rfl
    | none => exact ih ((move g a).game)

lemma applyMoves_snoc (g : Game) (ms : List Pos) (p : Pos) (g2 : Game)
    (h : applyMoves g (ms ++ [p]) = some g2) :
    ∃ g1, applyMoves g ms = some g1 ∧ (move g1 p).error = none ∧ (move g1 p).game = g2 := by
  rw [applyMoves_append] at h
  cases hg1 : applyMoves g ms with
  | none => rw [hg1] at h; simp at h
  | some g1 =>
    rw [hg1] at h
    simp only [Option.some_bind] at h
    unfold applyMoves at h
    cases he : (move g1 p).error with
    | some e => rw [he] at h; simp at h
    | none =>
      rw [he] at h
      refine ⟨g1, rfl, he, ?_⟩
      unfold applyMoves at h
      injection h

lemma applyMoves_inv (fp : Player) (ms : List Pos) (g : Game)
    (h : applyMoves (initGame fp) ms = some g) :
    g.move_count = ms.length ∧
    ms.Nodup ∧
    (∀ q ∈ ms, in_board q = true) ∧
    (∀ q : Pos, ((g.board q).value ≠ CellValue.blank ↔ q ∈ ms)) ∧
    (∀ q : Pos, ((g.board q).special = true ↔
        ∃ i, ms[i]? = some q ∧ i % SQUARES_PER_LEVEL ∈ SPECIAL_SQUARES)) ∧
    (∀ q : Pos, (current_level g : Int) < q.2.2 → (g.board q).value = CellValue.blank) := by
  induction ms using List.reverseRecOn generalizing g with
  | nil =>
    simp only [applyMoves] at h
    injection h with h
    subst h
    refine ⟨rfl, List.nodup_nil, ?_, ?_, ?_, ?_⟩
    · intro q hq
      cases hq
    · intro q
      constructor
      · intro hv
        exact absurd rfl hv
      · intro hq
        cases hq
    · intro q
      constructor
      · intro hs
        cases hs
      · rintro ⟨i, hi, _⟩
        simp at hi
    · intro q _
      rfl
  | append_singleton ms p ih =>
    obtain ⟨g1, h1, herr, hgame⟩ := applyMoves_snoc _ ms p g h
    obtain ⟨imc, inodup, iib, iocc, ispec, iclear⟩ := ih g1 h1
    obtain ⟨cz, cib, cblank⟩ := move_ok_conds g1 p herr
    subst hgame
    have hpnot : p ∉ ms := fun hp => absurd cblank ((iocc p).mpr hp)
    have hboard : ∀ q : Pos, ((move g1 p).game).board q =
        if q = p then
          { value := CellValue.occ (current_player g1), special := current_move_special g1 }
        else g1.board q := by
      intro q
      rw [move_ok_eq g1 p herr, moveBody_board, place_square_board]
    have hmc : ((move g1 p).game).move_count = g1.move_count + 1 := by
      rw [move_ok_eq g1 p herr, moveBody_move_count]
    refine ⟨?_, ?_, ?_, ?_, ?_, ?_⟩
    · rw [hmc, imc]
      simp
    · simp [List.nodup_append, inodup, hpnot]
    · intro q hq
      rcases List.mem_append.mp hq with hq | hq
      · exact iib q hq
      · simp at hq
        subst hq
        exact cib
    · intro q
      rw [hboard q]
      by_cases hqp : q = p
      · subst hqp
        rw [if_pos rfl]
        simp
      · rw [if_neg hqp]
        rw [iocc q]
        simp [List.mem_append, hqp]
    · intro q
      rw [hboard q]
      by_cases hqp : q = p
      · subst hqp
        rw [if_pos rfl]
        constructor
        · intro hs
          refine ⟨ms.length, List.getElem?_concat_length ms q, ?_⟩
          unfold current_move_special at hs
          rw [imc] at hs
          exact of_decide_eq_true hs
        · rintro ⟨i, hi, hspec⟩
          have hilen : i = ms.length := by
            rcases Nat.lt_trichotomy i ms.length with hlt | heq | hgt
            · exfalso
              rw [List.getElem?_append_left hlt] at hi
              exact hpnot (List.getElem?_mem hi)
            · exact heq
            · exfalso
              have hle : (ms ++ [q]).length ≤ i := by
                simp
                omega
              rw [List.getElem?_eq_none_iff.mpr hle] at hi
              cases hi
          subst hilen
          unfold current_move_special
          rw [imc]
          exact decide_eq_true hspec
      · rw [if_neg hqp]
        rw [ispec q]
        constructor
        · rintro ⟨i, hi, hs⟩
          have hlt : i < ms.length := (List.getElem?_eq_some_iff.mp hi).1
          refine ⟨i, ?_, hs⟩
          rw [List.getElem?_append_left hlt]
          exact hi
        · rintro ⟨i, hi, hs⟩
          rcases Nat.lt_trichotomy i ms.length with hlt | heq | hgt
          · rw [List.getElem?_append_left hlt] at hi
            exact ⟨i, hi, hs⟩
          · exfalso
            subst heq
            rw [List.getElem?_concat_length] at hi
            injection hi with hi
            exact hqp hi.symm
          · exfalso
            have hle : (ms ++ [p]).length ≤ i := by
              simp
              omega
            rw [List.getElem?_eq_none_iff.mpr hle] at hi
            cases hi
    · intro q hq
      have hlev : current_level g1 ≤ current_level ((move g1 p).game) := by
        unfold current_level
        rw [hmc]
        exact Nat.div_le_div_right (Nat.le_succ _)
      have hq1 : (current_level g1 : Int) < q.2.2 :=
        lt_of_le_of_lt (by exact_mod_cast hlev) hq
      have hqp : q ≠ p := by
        intro hqp
        subst hqp
        rw [cz] at hq1
        exact lt_irrefl _ hq1
      rw [hboard q, if_neg hqp]
      exact iclear q hq1

lemma option_eq_some_getD {α : Type} (o : Option α) (d : α) (h : o.isSome = true) :
    o = some (o.getD d) := by
  cases o with
  | none => cases h
  | some a => rfl

/-- C5: after any sequence of successful moves from a reset state, a
cell's special flag is true iff the cell is occupied and was filled by
the move whose move count modulo SQUARES_PER_LEVEL was a special
offset. -/
theorem special_iff_offset (fp : Player) (ms : List Pos) (g : Game)
    (h : applyMoves (initGame fp) ms = some g) (q : Pos) :
    (g.board q).special = true ↔
      ((g.board q).value ≠ CellValue.blank ∧
        ∃ i, ms[i]? = some q ∧ i % SQUARES_PER_LEVEL ∈ SPECIAL_SQUARES) := by
  obtain ⟨-, -, -, iocc, ispec, -⟩ := applyMoves_inv fp ms g h
  rw [ispec q]
  constructor
  · rintro ⟨i, hi, hs⟩
    exact ⟨(iocc q).mpr (List.getElem?_mem hi), i, hi, hs⟩
  · rintro ⟨-, hex⟩
    exact hex

/-- Witness for C5 after the two moves of `seq2`. -/
theorem special_iff_offset_witness :
    applyMoves (initGame Player.red) seq2 = some g2w ∧
    (∀ q : Pos, ((g2w.board q).special = true ↔
      ((g2w.board q).value ≠ CellValue.blank ∧
        ∃ i, seq2[i]? = some q ∧ i % SQUARES_PER_LEVEL ∈ SPECIAL_SQUARES))) := by
  have h : applyMoves (initGame Player.red) seq2 = some g2w :=
    option_eq_some_getD _ _ (by decide)
  exact ⟨h, fun q => special_iff_offset Player.red seq2 g2w h q⟩

/-- C8: after exactly TOTAL_SQUARES successful moves from a reset state,
the game is done and every board cell is occupied. -/
theorem full_game_done_and_filled (fp : Player) (ms : List Pos) (g : Game)
    (h : applyMoves (initGame fp) ms = some g) (hlen : ms.length = TOTAL_SQUARES) :
    done g = true ∧ ∀ q ∈ iter_xyz, (g.board q).value ≠ CellValue.blank := by
  obtain ⟨imc, inodup, iib, iocc, -, -⟩ := applyMoves_inv fp ms g h
  constructor
  · unfold done
    rw [imc, hlen]
    simp
  · have hsub : ms.toFinset ⊆ iter_xyz.toFinset := by
      intro q hq
      rw [List.mem_toFinset] at hq ⊢
      have hb := iib q hq
      unfold in_board at hb
      exact of_decide_eq_true hb
    have hcard : iter_xyz.toFinset.card ≤ ms.toFinset.card := by
      rw [List.toFinset_card_of_nodup inodup, hlen]
      decide
    have heq : ms.toFinset = iter_xyz.toFinset :=
      Finset.eq_of_subset_of_card_le hsub hcard
    intro q hq
    rw [iocc q]
    have hq2 : q ∈ ms.toFinset := by
      rw [heq]
      exact List.mem_toFinset.mpr hq
    exact List.mem_toFinset.mp hq2

/-- Witness for C8 at the concrete 27-move game `seq27`. -/
theorem full_game_done_and_filled_witness :
    applyMoves (initGame Player.red) seq27 = some g27 ∧ seq27.length = TOTAL_SQUARES ∧
    (done g27 = true ∧ ∀ q ∈ iter_xyz, (g27.board q).value ≠ CellValue.blank) := by
  have h : applyMoves (initGame Player.red) seq27 = some g27 :=
    option_eq_some_getD _ _ (by decide)
  exact ⟨h, by decide, full_game_done_and_filled Player.red seq27 g27 h (by decide)⟩

/-! ## Win detection versus the specification sum (claim C3) -/

lemma countHits_aux (g : Game) (player : Player) : ∀ (path : List Pos) (a b : Nat),
    path.foldl
      (fun hs xyz =>
        if (g.board xyz).value = CellValue.occ player then
          (hs.1 + 1, if (g.board xyz).special then hs.2 + 1 else hs.2)
        else hs)
      (a, b) =
      (a + (path.filter fun q => decide ((g.board q).value = CellValue.occ player)).length,
       b + (path.filter fun q =>
         decide ((g.board q).value = CellValue.occ player) && (g.board q).special).length)
  | [], a, b => by simp
  | q :: path, a, b => by
    rw [List.foldl_cons, List.filter_cons, List.filter_cons]
    by_cases hv : (g.board q).value = CellValue.occ player
    · have hd : decide ((g.board q).value = CellValue.occ player) = true := decide_eq_true hv
      rw [hd]
      by_cases hsp : (g.board q).special = true
      · rw [if_pos hv, if_pos hsp, hsp]
        rw [countHits_aux g player path]
        simp [Prod.ext_iff]
        omega
      · simp only [Bool.not_eq_true] at hsp
        rw [if_pos hv, hsp, if_neg (by simp)]
        rw [countHits_aux g player path]
        simp [Prod.ext_iff]
        omega
    · have hd : decide ((g.board q).value = CellValue.occ player) = false := decide_eq_false hv
      rw [hd, if_neg hv]
      rw [countHits_aux g player path]
      simp

lemma countHits_eq (g : Game) (player : Player) (path : List Pos) :
    countHits g player path =
      ((path.filter fun q => decide ((g.board q).value = CellValue.occ player)).length,
       (path.filter fun q =>
         decide ((g.board q).value = CellValue.occ player) && (g.board q).special).length) := by
  unfold countHits
  rw [countHits_aux]
  simp

lemma scanPath_fst (g : Game) (player : Player) (p : Pos) (acc : Int × List Pos)
    (path : List Pos) :
    (scanPath g player p acc path).1 = acc.1 + pathPoints g player p path := by
  unfold scanPath pathPoints
  by_cases c1 : p.2.2 < (path.headD ((0, 0, 0) : Pos)).2.2
  · rw [if_pos c1, if_pos c1, add_zero]
  · rw [if_neg c1, if_neg c1]
    by_cases c2 : p ∉ path
    · rw [if_pos c2, if_pos c2, add_zero]
    · rw [if_neg c2, if_neg c2]
      dsimp only
      by_cases c3 : (countHits g player path).2 = SIZE
      · simp [c3]
      · by_cases c4 : (countHits g player path).1 = SIZE
        · simp [c3, c4]
        · simp [c3, c4]

lemma foldl_scan_fst (g : Game) (player : Player) (p : Pos) (L : List (List Pos)) :
    ∀ acc : Int × List Pos,
    (L.foldl (scanPath g player p) acc).1 =
      L.foldl (fun a path => a + pathPoints g player p path) acc.1 := by
  induction L with
  | nil => intro acc; rfl
  | cons d L ih =>
    intro acc
    simp only [List.foldl_cons]
    rw [ih (scanPath g player p acc d), scanPath_fst]

lemma foldl_add_congr {α : Type} (c1 c2 : α → Int) (L : List α)
    (h : ∀ x ∈ L, c1 x = c2 x) : ∀ a : Int,
    L.foldl (fun acc x => acc + c1 x) a = L.foldl (fun acc x => acc + c2 x) a := by
  induction L with
  | nil => intro a; rfl
  | cons d L ih =>
    intro a
    simp only [List.foldl_cons]
    rw [h d (List.mem_cons_self d L)]
    exact ih (fun x hx => h x (List.mem_cons_of_mem d hx)) _

lemma length_filter_eq_iff {α : Type} (f : α → Bool) (l : List α) :
    (l.filter f).length = l.length ↔ ∀ a ∈ l, f a = true := by
  constructor
  · intro h
    rw [← List.filter_eq_self]
    exact (List.filter_sublist l).eq_of_length h
  · intro h
    rw [List.filter_eq_self.mpr h]

lemma winning_paths_length_all : ∀ path ∈ winning_paths, path.length = SIZE := by decide

lemma pathPoints_eq_specContrib (g : Game) (player : Player) (p : Pos) (path : List Pos)
    (hlen : path.length = SIZE)
    (hclear : ∀ q : Pos, p.2.2 < q.2.2 → (g.board q).value = CellValue.blank) :
    pathPoints g player p path = specContrib g.board player p path := by
  have hne : path ≠ [] := by
    intro he
    rw [he] at hlen
    simp [SIZE] at hlen
  have hhead : path.headD ((0, 0, 0) : Pos) ∈ path := by
    cases path with
    | nil => exact absurd rfl hne
    | cons a t => exact List.mem_cons_self a t
  have h1iff : (countHits g player path).1 = SIZE ↔
      ∀ q ∈ path, (g.board q).value = CellValue.occ player := by
    rw [countHits_eq]
    dsimp only
    rw [← hlen, length_filter_eq_iff]
    constructor
    · intro h q hq
      exact of_decide_eq_true (h q hq)
    · intro h q hq
      exact decide_eq_true (h q hq)
  have h2iff : (countHits g player path).2 = SIZE ↔
      ∀ q ∈ path, ((g.board q).value = CellValue.occ player ∧ (g.board q).special = true) := by
    rw [countHits_eq]
    dsimp only
    rw [← hlen, length_filter_eq_iff]
    constructor
    · intro h q hq
      have hb := h q hq
      rw [Bool.and_eq_true] at hb
      exact ⟨of_decide_eq_true hb.1, hb.2⟩
    · intro h q hq
      rw [Bool.and_eq_true]
      exact ⟨decide_eq_true (h q hq).1, (h q hq).2⟩
  unfold pathPoints specContrib
  by_cases c1 : p.2.2 < (path.headD ((0, 0, 0) : Pos)).2.2
  · rw [if_pos c1]
    have hblank := hclear _ c1
    rw [if_neg]
    rintro ⟨-, hocc⟩
    have hx := hocc _ hhead
    rw [hblank] at hx
    cases hx
  · rw [if_neg c1]
    by_cases c2 : p ∉ path
    · rw [if_pos c2]
      rw [if_neg]
      rintro ⟨hp, -⟩
      exact c2 hp
    · rw [if_neg c2]
      push_neg at c2
      by_cases c3 : (countHits g player path).2 = SIZE
      · rw [if_pos c3]
        have hall := h2iff.mp c3
        rw [if_pos ⟨c2, fun q hq => (hall q hq).1⟩]
        rw [if_pos (fun q hq => (hall q hq).2)]
      · rw [if_neg c3]
        by_cases c4 : (countHits g player path).1 = SIZE
        · rw [if_pos c4]
          have hocc := h1iff.mp c4
          rw [if_pos ⟨c2, hocc⟩]
          rw [if_neg]
          intro hspec
          exact c3 (h2iff.mpr (fun q hq => ⟨hocc q hq, hspec q hq⟩))
        · rw [if_neg c4]
          rw [if_neg]
          rintro ⟨-, hocc⟩
          exact c4 (h1iff.mpr hocc)

lemma scanPaths_eq_specPoints (g : Game) (player : Player) (p : Pos)
    (hclear : ∀ q : Pos, p.2.2 < q.2.2 → (g.board q).value = CellValue.blank) :
    (scanPaths g player p).1 = specPoints g.board player p := by
  unfold scanPaths specPoints
  rw [foldl_scan_fst]
  exact foldl_add_congr _ _ winning_paths
    (fun path hmem =>
      pathPoints_eq_specContrib g player p path (winning_paths_length_all path hmem) hclear) 0

lemma reachable_levels_clear (g : Game) (hg : Reachable g) :
    ∀ q : Pos, (current_level g : Int) < q.2.2 → (g.board q).value = CellValue.blank := by
  obtain ⟨fp, ms, h⟩ := hg
  exact (applyMoves_inv fp ms g h).2.2.2.2.2

/-- C3: for every reachable state and every successful move, the points
added to the mover's score equal the spec-side sum over all winning paths
that contain the just-filled position and are fully occupied by the
mover, each counted once, worth 2 when all three cells are special and 1
otherwise. -/
theorem move_points_eq_spec (g : Game) (hg : Reachable g) (p : Pos)
    (h : (move g p).error = none) :
    (move g p).game.scores (current_player g) =
      g.scores (current_player g) +
        specPoints ((move g p).game.board) (current_player g) p := by
  obtain ⟨cz, -, -⟩ := move_ok_conds g p h
  have hb : (move g p).game.board = (place_square g p).board := by
    rw [move_ok_eq g p h, moveBody_board]
  have hclear : ∀ q : Pos, p.2.2 < q.2.2 →
      ((place_square g p).board q).value = CellValue.blank := by
    intro q hq
    have hqp : q ≠ p := by
      intro he
      subst he
      exact lt_irrefl _ hq
    rw [place_square_board, if_neg hqp]
    apply reachable_levels_clear g hg
    rw [← cz]
    exact hq
  rw [hb]
  conv_lhs => rw [move_ok_eq g p h]
  rw [moveBody_scores_self]
  rw [scanPaths_eq_specPoints (place_square g p) (current_player g) p hclear]

/-- Witness for C3 at a fresh (reachable) game and the successful move
(0, 0, 0), which completes no line. -/
theorem move_points_eq_spec_witness :
    (move (initGame Player.red) ((0 : Int), (0 : Int), (0 : Int))).error = none ∧
    (move (initGame Player.red) ((0 : Int), (0 : Int), (0 : Int))).game.scores
        (current_player (initGame Player.red)) =
      (initGame Player.red).scores (current_player (initGame Player.red)) +
        specPoints ((move (initGame Player.red) ((0 : Int), (0 : Int), (0 : Int))).game.board)
          (current_player (initGame Player.red)) ((0 : Int), (0 : Int), (0 : Int)) :=
  ⟨by decide,
   move_points_eq_spec (initGame Player.red) ⟨Player.red, [], rfl⟩
     ((0 : Int), (0 : Int), (0 : Int)) (by decide)⟩
